import Mathlib

/-!
A verification development for the `aversion` crate: versioned data
structures with a chain resolver (`upgrade_to_latest`) that lifts a value
stored at an old revision to the latest revision of its family, and a
group dispatcher (`read_message`) that routes a header-tagged payload to
the right family and wraps the upgraded value in a tagged union.

The shipped sources contain only `src/aversion/src/lib.rs`, which is the
crate's documentation plus re-exports; the bodies of the `group`, `id`
and `versioned` modules and of the derive macros are not in the tree.
The definitions below are therefore modelled from the specification of
those components, faithful to its words; `MsgId` alone is taken from the
`MessageId` documentation that is present in `lib.rs`.
-/

/-- Modelled from the spec: the error taxonomy of section 7.
`UnknownRevision` when a revision lies outside `[1, latest]`,
`UnknownMessageType` when a family identifier is absent from the
dispatch table, `PayloadDecodeError` when the external codec fails. -/
inductive AversionError where
  | unknownRevision
  | unknownMessageType
  | payloadDecodeError
deriving DecidableEq

/-- Modelled from the spec: walk the upgrade-edge table. `applyChain edge r
steps v` applies `edge r`, then `edge (r+1)`, ..., then `edge (r+steps-1)`,
each edge consuming the previous edge's output. -/
def applyChain {α : Type} (edge : Nat → α → α) : Nat → Nat → α → α
  | _, 0, v => v
  | r, s + 1, v => applyChain edge (r + 1) s (edge r v)

/-- The revision indices of the edges traversed when lifting revision `r`
to latest revision `n`: the list `[r, r+1, ..., n-1]` (edge `k` is the
transformation from revision `k` to revision `k+1`). -/
def chainTrace (r n : Nat) : List Nat :=
  List.range' r (n - r)

/-- Modelled from the spec: the chain resolver of section 4.1, missing from
the shipped sources (only its documentation, `lib.rs` lines 60-73, is
present). `upgrade_to_latest n edge r decode` checks `1 ≤ r ≤ n`, decodes
the value at revision `r` (a codec failure surfaces as
`payloadDecodeError`), and applies the `n - r` edges from `r` up to `n`
in increasing order. Out-of-range revisions fail with
`unknownRevision`. -/
def upgrade_to_latest {α : Type} (n : Nat) (edge : Nat → α → α)
    (r : Nat) (decode : Nat → Option α) : Except AversionError α :=
  if 1 ≤ r ∧ r ≤ n then
    match decode r with
    | some v => .ok (applyChain edge r (n - r) v)
    | none => .error .payloadDecodeError
  else
    .error .unknownRevision

theorem applyChain_eq_foldl {α : Type} (edge : Nat → α → α) :
    ∀ (s r : Nat) (v : α),
      applyChain edge r s v = (List.range' r s).foldl (fun w k => edge k w) v := by
  intro s
  induction s with
  | zero => intro r v; rfl
  | succ s ih =>
      intro r v
      simp only [applyChain, List.range', List.foldl_cons]
      exact ih (r + 1) (edge r v)

theorem applyChain_succ_last {α : Type} (edge : Nat → α → α) :
    ∀ (s r : Nat) (v : α),
      applyChain edge r (s + 1) v = edge (r + s) (applyChain edge r s v) := by
  intro s
  induction s with
  | zero => intro r v; rfl
  | succ s ih =>
      intro r v
      show applyChain edge (r + 1) (s + 1) (edge r v)
        = edge (r + (s + 1)) (applyChain edge (r + 1) s (edge r v))
      rw [ih (r + 1) (edge r v), Nat.add_assoc, Nat.add_comm 1 s]

/-- Modelled from the spec: the wire header of section 6, a pair
`(family_identifier, source_revision)` read before the payload. -/
structure Header where
  family_identifier : Nat
  source_revision : Nat
deriving DecidableEq

/-- Modelled from the spec: the build-time configuration of one type
family, its latest revision number and its upgrade-edge table. -/
structure FamilyCfg (α : Type) where
  latest : Nat
  edge : Nat → α → α

/-- Modelled from the spec: the group dispatcher of section 4.2, missing
from the shipped sources (only its documentation, `lib.rs` lines
101-105, is present). Looks up the header's family identifier in the
dispatch table, fails with `unknownMessageType` when absent, otherwise
decodes the payload at the header's source revision and runs the chain
resolver, tagging the result with the family identifier. -/
def read_message {α : Type} (table : List (Nat × FamilyCfg α)) (hdr : Header)
    (decode : Nat → Nat → Option α) : Except AversionError (Nat × α) :=
  match table.find? (fun p => p.1 == hdr.family_identifier) with
  | none => .error .unknownMessageType
  | some (i, fam) =>
      (upgrade_to_latest fam.latest fam.edge hdr.source_revision (decode i)).map
        (fun v => (i, v))

/-- Modelled from the spec: the configuration error of section 4.3, raised
when two families of one dispatch group share an identifier. -/
inductive ConfigError where
  | duplicateIdentifier
deriving DecidableEq

/-- Modelled from the spec: family/identifier registration of section 4.3,
missing from the shipped sources. Builds the write-once dispatch table,
rejecting duplicate identifiers at configuration time. -/
def register_group {α : Type} (fams : List (Nat × FamilyCfg α)) :
    Except ConfigError (List (Nat × FamilyCfg α)) :=
  if (fams.map Prod.fst).Nodup then .ok fams else .error .duplicateIdentifier

/-- Modelled from the spec: the three revisions of the end-to-end example
family `Foo` of section 8 (`FooV1 {val : int}`, `FooV2` with the value
doubled, `FooV3` with the value stringified), flattened into one sum. -/
inductive FooVal where
  | v1 : Nat → FooVal
  | v2 : Nat → FooVal
  | v3 : String → FooVal
deriving DecidableEq

/-- Modelled from the spec: `Foo`'s upgrade edges, edge 1 doubles the
integer field, edge 2 stringifies it. Indices without an edge keep the
value unchanged. -/
def fooEdge : Nat → FooVal → FooVal
  | 1, FooVal.v1 n => FooVal.v2 (2 * n)
  | 2, FooVal.v2 n => FooVal.v3 (toString n)
  | _, v => v

/-- Modelled from the spec: the single-revision example family `Bar` of
section 8. -/
inductive BarVal where
  | v1 : BarVal
deriving DecidableEq

/-- `Bar` has a single revision, so its edge table is empty: every edge
index keeps the value unchanged (no edge is ever applied). -/
def barEdge : Nat → BarVal → BarVal :=
  fun _ v => v

/-- Modelled from the spec: the tagged union produced by the example
dispatch group of section 8, one variant per family. -/
inductive MyProtocol where
  | foo : FooVal → MyProtocol
  | bar : BarVal → MyProtocol
deriving DecidableEq

/-- Modelled from the spec: the example dispatch group of section 8,
family `Foo` (3 revisions) at identifier 1 and family `Bar` (1 revision)
at identifier 2. Identifier 1 routes to `Foo`'s decode-then-resolve
path, identifier 2 to `Bar`'s, anything else fails with
`unknownMessageType`. -/
def myGroupRead (hdr : Header) (fooDecode : Nat → Option FooVal)
    (barDecode : Nat → Option BarVal) : Except AversionError MyProtocol :=
  if hdr.family_identifier = 1 then
    (upgrade_to_latest 3 fooEdge hdr.source_revision fooDecode).map MyProtocol.foo
  else if hdr.family_identifier = 2 then
    (upgrade_to_latest 1 barEdge hdr.source_revision barDecode).map MyProtocol.bar
  else
    .error .unknownMessageType

/-- The stored payload of the end-to-end example: a revision-1 `Foo`
value `{val: 5}`; decoding at any other revision fails. -/
def fooStoredDecode : Nat → Option FooVal :=
  fun k => if k = 1 then some (FooVal.v1 5) else none

/-- The stored payload for the `Bar` routing check: a revision-1 `Bar`
value. -/
def barStoredDecode : Nat → Option BarVal :=
  fun k => if k = 1 then some BarVal.v1 else none

/-- The identifier type of `MessageId::MSG_ID`: a `u16`, as documented in
`src/aversion/src/lib.rs` lines 143-151. -/
def MsgId : Type :=
  Fin 65536

instance : Fintype MsgId :=
  inferInstanceAs (Fintype (Fin 65536))

instance : DecidableEq MsgId :=
  inferInstanceAs (DecidableEq (Fin 65536))

/-- Claim C1: for a family with latest revision `n` and `1 ≤ r < n`, the
chain resolver decodes the value at revision `r` and then folds the
upgrade edges `r, r+1, ..., n-1` over it (each edge consuming the
previous edge's output); the trace of edges applied is exactly
`[r, ..., n-1]`, of length `n - r`, strictly increasing, with each edge
applied exactly once. -/
theorem C1_upgrade_chain_order {α : Type} (n : Nat) (edge : Nat → α → α)
    (r : Nat) (decode : Nat → Option α) (h1 : 1 ≤ r) (h2 : r < n) :
    upgrade_to_latest n edge r decode
      = (decode r).elim (Except.error AversionError.payloadDecodeError)
          (fun v => Except.ok ((chainTrace r n).foldl (fun w k => edge k w) v))
    ∧ (chainTrace r n).length = n - r
    ∧ List.Pairwise (fun a b => a < b) (chainTrace r n)
    ∧ (chainTrace r n).Nodup
    ∧ (∀ k, k ∈ chainTrace r n ↔ r ≤ k ∧ k < n) := by
  refine ⟨?_, ?_, ?_, ?_, ?_⟩
  · unfold upgrade_to_latest
    rw [if_pos ⟨h1, Nat.le_of_lt h2⟩]
    cases hd : decode r with
    | none => rfl
    | some v =>
        simp only [Option.elim]
        rw [applyChain_eq_foldl]
        rfl
  · simp [chainTrace]
  · exact List.pairwise_lt_range' r (n - r) 1 (by omega)
  · exact List.nodup_range' r (n - r) 1 (by omega)
  · intro k
    simp only [chainTrace, List.mem_range'_1]
    omega

/-- Witness for C1 at `n = 3`, `r = 1` with the example family `Foo` and
its stored revision-1 payload. -/
theorem C1_upgrade_chain_order_witness :
    upgrade_to_latest 3 fooEdge 1 fooStoredDecode
      = (fooStoredDecode 1).elim (Except.error AversionError.payloadDecodeError)
          (fun v => Except.ok ((chainTrace 1 3).foldl (fun w k => fooEdge k w) v))
    ∧ (chainTrace 1 3).length = 3 - 1
    ∧ List.Pairwise (fun a b => a < b) (chainTrace 1 3)
    ∧ (chainTrace 1 3).Nodup
    ∧ (∀ k, k ∈ chainTrace 1 3 ↔ 1 ≤ k ∧ k < 3) :=
  C1_upgrade_chain_order 3 fooEdge 1 fooStoredDecode (by decide) (by decide)

/-- Claim C2: calling the chain resolver at the latest revision `n`
applies zero edges and returns the decoded value unchanged; in
particular the edge trace from `n` to `n` is empty, so for `n = 1`
every read returns the decoded revision-1 value unchanged. -/
theorem C2_upgrade_identity {α : Type} (n : Nat) (edge : Nat → α → α)
    (decode : Nat → Option α) (v : α) (h1 : 1 ≤ n) (hv : decode n = some v) :
    upgrade_to_latest n edge n decode = .ok v ∧ chainTrace n n = [] := by
  constructor
  · unfold upgrade_to_latest
    rw [if_pos ⟨h1, Nat.le_refl n⟩, hv]
    have : n - n = 0 := Nat.sub_self n
    rw [this]
    rfl
  · simp [chainTrace]

/-- Witness for C2 at `n = 1` with the single-revision family `Bar`: the
edge table is empty and the read returns the decoded revision-1 value. -/
theorem C2_upgrade_identity_witness :
    upgrade_to_latest 1 barEdge 1 barStoredDecode = .ok BarVal.v1
    ∧ chainTrace 1 1 = [] :=
  C2_upgrade_identity 1 barEdge barStoredDecode BarVal.v1 (by decide) (by decide)

/-- Claim C3: the chain resolver fails with `unknownRevision` exactly when
the source revision lies outside `[1, n]`; in particular it fails at
revision `0` and at revision `n + 1`. -/
theorem C3_unknownRevision_iff {α : Type} (n : Nat) (edge : Nat → α → α)
    (r : Nat) (decode : Nat → Option α) :
    (upgrade_to_latest n edge r decode = .error .unknownRevision
      ↔ ¬ (1 ≤ r ∧ r ≤ n))
    ∧ upgrade_to_latest n edge 0 decode = .error .unknownRevision
    ∧ upgrade_to_latest n edge (n + 1) decode = .error .unknownRevision := by
  refine ⟨⟨?_, ?_⟩, ?_, ?_⟩
  · intro h hrange
    unfold upgrade_to_latest at h
    rw [if_pos hrange] at h
    cases hd : decode r with
    | none => rw [hd] at h; exact AversionError.noConfusion (Except.error.inj h)
    | some v => rw [hd] at h; exact Except.noConfusion h
  · intro hrange
    unfold upgrade_to_latest
    rw [if_neg hrange]
  · unfold upgrade_to_latest
    rw [if_neg (by omega)]
  · unfold upgrade_to_latest
    rw [if_neg (by omega)]

/-- Claim C4: when the header's family identifier is absent from the
dispatch table, `read_message` fails with `unknownMessageType` for every
decode function (hence regardless of the payload bytes), and this error
is distinct from `unknownRevision`. -/
theorem C4_unknownMessageType {α : Type} (table : List (Nat × FamilyCfg α))
    (hdr : Header) (habs : ∀ p ∈ table, p.1 ≠ hdr.family_identifier) :
    (∀ decode : Nat → Nat → Option α,
      read_message table hdr decode = .error .unknownMessageType)
    ∧ AversionError.unknownMessageType ≠ AversionError.unknownRevision := by
  constructor
  · intro decode
    unfold read_message
    have hnone : table.find? (fun p => p.1 == hdr.family_identifier) = none := by
      rw [List.find?_eq_none]
      intro p hp
      simpa using habs p hp
    rw [hnone]
  · intro h
    exact AversionError.noConfusion h

/-- Witness for C4: the example group of section 8 on a header naming the
unregistered identifier 3. -/
theorem C4_unknownMessageType_witness :
    (∀ decode : Nat → Nat → Option FooVal,
      read_message [(1, FamilyCfg.mk 3 fooEdge)] ⟨3, 1⟩ decode
        = .error .unknownMessageType)
    ∧ AversionError.unknownMessageType ≠ AversionError.unknownRevision :=
  C4_unknownMessageType [(1, FamilyCfg.mk 3 fooEdge)] ⟨3, 1⟩ (by decide)

/-- Claim C5: whenever `read_message` succeeds, the returned tag is the
header's family identifier, that identifier was found in the table, the
header's source revision is within the family's range `[1, latest]`, and
the returned value is obtained by decoding the payload at the header's
declared source revision and applying the family's whole upgrade chain
from there to the latest revision. -/
theorem C5_read_message_ok {α : Type} (table : List (Nat × FamilyCfg α))
    (hdr : Header) (decode : Nat → Nat → Option α) (i : Nat) (v : α)
    (hok : read_message table hdr decode = .ok (i, v)) :
    i = hdr.family_identifier
    ∧ ∃ fam : FamilyCfg α,
        table.find? (fun p => p.1 == hdr.family_identifier) = some (i, fam)
        ∧ 1 ≤ hdr.source_revision ∧ hdr.source_revision ≤ fam.latest
        ∧ ∃ d, decode i hdr.source_revision = some d
            ∧ v = applyChain fam.edge hdr.source_revision
                (fam.latest - hdr.source_revision) d := by
  cases hfind : table.find? (fun p => p.1 == hdr.family_identifier) with
  | none =>
      have hstep : read_message table hdr decode = .error .unknownMessageType := by
        unfold read_message
        rw [hfind]
      rw [hstep] at hok
      exact Except.noConfusion hok
  | some p =>
      obtain ⟨j, fam⟩ := p
      have hstep : read_message table hdr decode
          = (upgrade_to_latest fam.latest fam.edge hdr.source_revision
              (decode j)).map (fun w => (j, w)) := by
        unfold read_message
        rw [hfind]
      rw [hstep] at hok
      have hj : (j == hdr.family_identifier) = true := by
        simpa using List.find?_some hfind
      have hji : j = hdr.family_identifier := by simpa using hj
      unfold upgrade_to_latest at hok
      by_cases hrange : 1 ≤ hdr.source_revision ∧ hdr.source_revision ≤ fam.latest
      · rw [if_pos hrange] at hok
        cases hd : decode j hdr.source_revision with
        | none => rw [hd] at hok; exact Except.noConfusion hok
        | some d =>
            rw [hd] at hok
            simp only [Except.map] at hok
            have hpair := Except.ok.inj hok
            have hji2 : j = i := congrArg Prod.fst hpair
            have hvv : applyChain fam.edge hdr.source_revision
                (fam.latest - hdr.source_revision) d = v :=
              congrArg Prod.snd hpair
            subst hji2
            refine ⟨hji, fam, rfl, hrange.1, hrange.2, d, hd, hvv.symm⟩
      · rw [if_neg hrange] at hok
        simp only [Except.map] at hok
        exact Except.noConfusion hok

/-- Witness for C5: the example group of section 8, header `(1, 1)`,
stored revision-1 `Foo` payload `{val: 5}`. -/
theorem C5_read_message_ok_witness :
    (1 : Nat) = Header.family_identifier ⟨1, 1⟩
    ∧ ∃ fam : FamilyCfg FooVal,
        List.find? (fun p => p.1 == Header.family_identifier ⟨1, 1⟩)
            [(1, FamilyCfg.mk 3 fooEdge)] = some (1, fam)
        ∧ 1 ≤ Header.source_revision ⟨1, 1⟩
        ∧ Header.source_revision ⟨1, 1⟩ ≤ fam.latest
        ∧ ∃ d, (fun _ => fooStoredDecode) 1 (Header.source_revision ⟨1, 1⟩) = some d
            ∧ FooVal.v3 "10" = applyChain fam.edge (Header.source_revision ⟨1, 1⟩)
                (fam.latest - Header.source_revision ⟨1, 1⟩) d :=
  C5_read_message_ok [(1, FamilyCfg.mk 3 fooEdge)] ⟨1, 1⟩
    (fun _ => fooStoredDecode) 1 (FooVal.v3 "10") rfl

/-- Claim C6: in the example group (family `Foo` = identifier 1 with
revisions 1, 2, 3, edge 1 doubling and edge 2 stringifying; family `Bar`
= identifier 2 with a single revision), dispatching a stored revision-1
`Foo` value `{val: 5}` yields the revision-3 value `{val: "10"}`; header
`(1, 1)` routes to `Foo`'s path, header `(2, 1)` routes to `Bar`'s path,
and header `(3, 1)` fails with `unknownMessageType`. -/
theorem C6_end_to_end :
    myGroupRead ⟨1, 1⟩ fooStoredDecode barStoredDecode
      = .ok (MyProtocol.foo (FooVal.v3 "10"))
    ∧ myGroupRead ⟨2, 1⟩ fooStoredDecode barStoredDecode
      = .ok (MyProtocol.bar BarVal.v1)
    ∧ myGroupRead ⟨3, 1⟩ fooStoredDecode barStoredDecode
      = .error .unknownMessageType :=
  ⟨rfl, rfl, rfl⟩

/-- Claim C7: every `read_message` call either produces a whole tagged
value or fails with exactly one of `unknownRevision`,
`unknownMessageType` or `payloadDecodeError`; when the header's family
is found, an error from the chain resolver is propagated unchanged and
a codec failure on an in-range revision surfaces as
`payloadDecodeError`; and a success is exactly a resolver success for
the found family (no error is ever swallowed or replaced by a default
value). -/
theorem C7_error_policy {α : Type} (table : List (Nat × FamilyCfg α)) (hdr : Header)
    (decode : Nat → Nat → Option α) :
    ((∃ t, read_message table hdr decode = .ok t)
      ∨ read_message table hdr decode = .error .unknownRevision
      ∨ read_message table hdr decode = .error .unknownMessageType
      ∨ read_message table hdr decode = .error .payloadDecodeError)
    ∧ (∀ i fam,
        table.find? (fun p => p.1 == hdr.family_identifier) = some (i, fam)
        → ∀ e, upgrade_to_latest fam.latest fam.edge hdr.source_revision (decode i)
            = .error e
          → read_message table hdr decode = .error e)
    ∧ (∀ i fam,
        table.find? (fun p => p.1 == hdr.family_identifier) = some (i, fam)
        → 1 ≤ hdr.source_revision → hdr.source_revision ≤ fam.latest
        → decode i hdr.source_revision = none
        → read_message table hdr decode = .error .payloadDecodeError)
    ∧ (∀ t, read_message table hdr decode = .ok t
        → ∃ fam,
            table.find? (fun p => p.1 == hdr.family_identifier) = some (t.1, fam)
            ∧ upgrade_to_latest fam.latest fam.edge hdr.source_revision (decode t.1)
                = .ok t.2) := by
  refine ⟨?_, ?_, ?_, ?_⟩
  · cases hfind : table.find? (fun p => p.1 == hdr.family_identifier) with
    | none =>
        have hstep : read_message table hdr decode = .error .unknownMessageType := by
          unfold read_message
          rw [hfind]
        exact Or.inr (Or.inr (Or.inl hstep))
    | some p =>
        obtain ⟨i, fam⟩ := p
        have hstep : read_message table hdr decode
            = (upgrade_to_latest fam.latest fam.edge hdr.source_revision
                (decode i)).map (fun w => (i, w)) := by
          unfold read_message
          rw [hfind]
        cases hu : upgrade_to_latest fam.latest fam.edge hdr.source_revision
            (decode i) with
        | ok w => exact Or.inl ⟨(i, w), by rw [hstep, hu]; rfl⟩
        | error e =>
            cases e with
            | unknownRevision => exact Or.inr (Or.inl (by rw [hstep, hu]; rfl))
            | unknownMessageType =>
                exact Or.inr (Or.inr (Or.inl (by rw [hstep, hu]; rfl)))
            | payloadDecodeError =>
                exact Or.inr (Or.inr (Or.inr (by rw [hstep, hu]; rfl)))
  · intro i fam hfind e he
    have hstep : read_message table hdr decode
        = (upgrade_to_latest fam.latest fam.edge hdr.source_revision
            (decode i)).map (fun w => (i, w)) := by
      unfold read_message
      rw [hfind]
    rw [hstep, he]
    rfl
  · intro i fam hfind h1 h2 hdnone
    have hstep : read_message table hdr decode
        = (upgrade_to_latest fam.latest fam.edge hdr.source_revision
            (decode i)).map (fun w => (i, w)) := by
      unfold read_message
      rw [hfind]
    rw [hstep]
    unfold upgrade_to_latest
    rw [if_pos ⟨h1, h2⟩, hdnone]
    rfl
  · intro t ht
    cases hfind : table.find? (fun p => p.1 == hdr.family_identifier) with
    | none =>
        have hstep : read_message table hdr decode = .error .unknownMessageType := by
          unfold read_message
          rw [hfind]
        rw [hstep] at ht
        exact Except.noConfusion ht
    | some p =>
        obtain ⟨i, fam⟩ := p
        have hstep : read_message table hdr decode
            = (upgrade_to_latest fam.latest fam.edge hdr.source_revision
                (decode i)).map (fun w => (i, w)) := by
          unfold read_message
          rw [hfind]
        rw [hstep] at ht
        cases hu : upgrade_to_latest fam.latest fam.edge hdr.source_revision
            (decode i) with
        | ok w =>
            rw [hu] at ht
            have hpair : (i, w) = t := Except.ok.inj ht
            subst hpair
            exact ⟨fam, rfl, hu⟩
        | error e =>
            rw [hu] at ht
            exact Except.noConfusion ht

/-- Claim C8: registering two families under the same identifier within
one dispatch group is rejected at configuration time with
`duplicateIdentifier`, and the registration never succeeds (so it never
silently keeps only one of the two families). -/
theorem C8_duplicate_rejected {α : Type} (fams : List (Nat × FamilyCfg α))
    (i j : Nat) (hi : i < fams.length) (hj : j < fams.length) (hne : i ≠ j)
    (hdup : (fams.get ⟨i, hi⟩).1 = (fams.get ⟨j, hj⟩).1) :
    register_group fams = .error .duplicateIdentifier
    ∧ ∀ out, register_group fams ≠ .ok out := by
  have hnot : ¬ (fams.map Prod.fst).Nodup := by
    intro hnd
    have hi' : i < (fams.map Prod.fst).length := by
      rw [List.length_map]; exact hi
    have hj' : j < (fams.map Prod.fst).length := by
      rw [List.length_map]; exact hj
    have hmap : (fams.map Prod.fst)[i] = (fams.map Prod.fst)[j] := by
      rw [List.getElem_map, List.getElem_map]
      exact hdup
    exact hne (hnd.getElem_inj_iff.mp hmap)
  constructor
  · unfold register_group
    rw [if_neg hnot]
  · intro out hout
    unfold register_group at hout
    rw [if_neg hnot] at hout
    exact Except.noConfusion hout

/-- Witness for C8: two families both registered at identifier 1. -/
theorem C8_duplicate_rejected_witness :
    register_group [(1, FamilyCfg.mk 3 fooEdge), (1, FamilyCfg.mk 2 fooEdge)]
      = .error .duplicateIdentifier
    ∧ ∀ out, register_group [(1, FamilyCfg.mk 3 fooEdge), (1, FamilyCfg.mk 2 fooEdge)]
        ≠ .ok out :=
  C8_duplicate_rejected [(1, FamilyCfg.mk 3 fooEdge), (1, FamilyCfg.mk 2 fooEdge)]
    0 1 (by decide) (by decide) (by decide) rfl

/-- Claim C9: for a fixed configuration, the chain resolver and the group
dispatcher are deterministic pure functions of their inputs: two runs
seeing the same decode results on the same source revision, and the same
header with agreeing decode functions, produce identical results. -/
theorem C9_determinism {α : Type} (n : Nat) (edge : Nat → α → α) (r : Nat)
    (d1 d2 : Nat → Option α) (table : List (Nat × FamilyCfg α)) (hdr : Header)
    (g1 g2 : Nat → Nat → Option α)
    (hd : d1 r = d2 r) (hg : ∀ a k, g1 a k = g2 a k) :
    upgrade_to_latest n edge r d1 = upgrade_to_latest n edge r d2
    ∧ read_message table hdr g1 = read_message table hdr g2 := by
  constructor
  · unfold upgrade_to_latest
    rw [hd]
  · have hgg : g1 = g2 := funext fun a => funext fun k => hg a k
    rw [hgg]

/-- Witness for C9: two syntactically different decode functions agreeing
at the consulted revision produce the same resolver output. -/
theorem C9_determinism_witness :
    upgrade_to_latest 3 fooEdge 1 fooStoredDecode
      = upgrade_to_latest 3 fooEdge 1 (fun k => if 1 ≤ k ∧ k ≤ 1
          then some (FooVal.v1 5) else none)
    ∧ read_message [(1, FamilyCfg.mk 3 fooEdge)] ⟨1, 1⟩ (fun _ => fooStoredDecode)
      = read_message [(1, FamilyCfg.mk 3 fooEdge)] ⟨1, 1⟩
          (fun _ k => fooStoredDecode k) :=
  C9_determinism 3 fooEdge 1 fooStoredDecode
    (fun k => if 1 ≤ k ∧ k ≤ 1 then some (FooVal.v1 5) else none)
    [(1, FamilyCfg.mk 3 fooEdge)] ⟨1, 1⟩ (fun _ => fooStoredDecode)
    (fun _ k => fooStoredDecode k) (by decide) (fun a k => rfl)

/-- Claim C10: the family identifier type of `MessageId::MSG_ID` is a
16-bit unsigned integer: every identifier lies in `[0, 65535]`, the type
has exactly `2 ^ 16` inhabitants (so one dispatch group distinguishes at
most `2 ^ 16` families), and a natural number is representable as an
identifier exactly when it is at most `65535`. -/
theorem C10_msgid_u16 :
    (∀ i : MsgId, Fin.val i ≤ 65535)
    ∧ Fintype.card MsgId = 2 ^ 16
    ∧ (∀ m : Nat, (∃ i : MsgId, Fin.val i = m) ↔ m ≤ 65535) := by
  refine ⟨?_, ?_, ?_⟩
  · intro i
    have h := i.isLt
    omega
  · exact (Fintype.card_fin 65536).trans (by norm_num)
  · intro m
    constructor
    · rintro ⟨i, rfl⟩
      have h := i.isLt
      omega
    · intro hm
      exact ⟨Fin.mk m (by omega), rfl⟩
